import Mathlib

/-!
# Verification of the mt5-docker terminal lifecycle layer

Shallow embedding of the three source files of the repository:

* `mt5_server.py`  — HTTP request/response adapter (`_prepare_ini`,
  `_delete_accounts_dat`, `_kill_terminal`, `_h_initialize`, `do_POST`,
  `_h_symbol_info`, `_h_order_send`, `_h_order_check`);
* `rpyc_server.py` — object-RPC adapter (`_prepare_ini`,
  `_delete_accounts_dat`, `MT5Service.exposed_initialize`);
* the `MetaTrader5` capability interface is modelled as a deterministic
  stub (`Stub`) supplying the result of each successive `initialize`,
  `terminal_info` and `last_error` call, and handlers are embedded as
  pure functions from the stub to a response together with the list of
  side-effecting actions they perform, in order.

A config text is embedded as a list of lines, each line a `List Char`
(the regular expressions of `_prepare_ini` are all line-anchored;
`re.sub` with `(?m)^Login=.*` rewrites every line starting with
`Login=`, and the `[Experts]` substitution with `re.DOTALL` and
`count=1` rewrites the single leftmost match, which starts at the first
line beginning with `[Experts]` from which some later line beginning
with `Enabled=0` exists, and flips the `0` of the first such later
line).
-/

namespace MT5

/-- A single line of a config file (no newline characters). -/
abbrev Line := List Char

/-- The literal `Login=` key prefix of the regex `(?m)^Login=.*`. -/
def loginKey : Line := ['L', 'o', 'g', 'i', 'n', '=']

/-- The literal `Server=` key prefix of the regex `(?m)^Server=.*`. -/
def serverKey : Line := ['S', 'e', 'r', 'v', 'e', 'r', '=']

/-- The literal `[Experts]` at the start of the Experts regex. -/
def expertsHeader : Line := ['[', 'E', 'x', 'p', 'e', 'r', 't', 's', ']']

/-- The literal `Enabled=0` matched by `^Enabled=` followed by `0`. -/
def enabledZero : Line := ['E', 'n', 'a', 'b', 'l', 'e', 'd', '=', '0']

/-- The literal `Enabled=1` produced by the replacement `\g<1>1`. -/
def enabledOne : Line := ['E', 'n', 'a', 'b', 'l', 'e', 'd', '=', '1']

/-- `re.sub(r"(?m)^Login=.*", f"Login={login}", text)`: every line whose
prefix is `Login=` is rewritten to `Login=<login>` (`.` does not cross
newlines, so `.*` is the rest of the line); all other lines untouched.
`none` models `login is None` (no substitution performed). -/
def applyLogin : Option Line → List Line → List Line
  | none, lines => lines
  | some l, lines =>
      lines.map fun s => if loginKey.isPrefixOf s then loginKey ++ l else s

/-- `re.sub(r"(?m)^Server=.*", f"Server={server}", text)`, as above. -/
def applyServer : Option Line → List Line → List Line
  | none, lines => lines
  | some v, lines =>
      lines.map fun s => if serverKey.isPrefixOf s then serverKey ++ v else s

/-- The replacement of the matched `Enabled=0` line: the group keeps
`Enabled=` and the matched `0` becomes `1`; the rest of the line (after
the nine matched characters) is untouched. -/
def flipLine (s : Line) : Line := enabledOne ++ s.drop 9

/-- Lazy search of `.*?^Enabled=0`: rewrite the first line whose prefix
is `Enabled=0`, returning `none` when no such line exists (the regex
then backtracks out of this start position). -/
def flipFirstEnabled : List Line → Option (List Line)
  | [] => none
  | s :: rest =>
      if enabledZero.isPrefixOf s then some (flipLine s :: rest)
      else
        match flipFirstEnabled rest with
        | some rest2 => some (s :: rest2)
        | none => none

/-- `re.sub(r"(?m)^(\[Experts\].*?^Enabled=)0", r"\g<1>1", text, count=1,
flags=re.DOTALL)`: the leftmost match starts at the first line beginning
with `[Experts]` from which a later `Enabled=0` line exists; that later
line's `0` is flipped; only one replacement (`count=1`). When the first
`[Experts]` line has no later `Enabled=0` line the regex engine moves to
later start positions (which can find no match either, every candidate
`Enabled=0` line being behind them too). -/
def expertsFlip : List Line → List Line
  | [] => []
  | s :: rest =>
      if expertsHeader.isPrefixOf s then
        match flipFirstEnabled rest with
        | some rest2 => s :: rest2
        | none => s :: expertsFlip rest
      else s :: expertsFlip rest

/-- The text transformation of `_prepare_ini` (identical in
`mt5_server.py` lines 78-85 and `rpyc_server.py` lines 48-60), applied
to one config file's content: Login substitution, then Server
substitution, then the Experts flip. -/
def prepareText (login server : Option Line) (lines : List Line) : List Line :=
  expertsFlip (applyServer server (applyLogin login lines))

/-- The per-line substitution performed by `_prepare_ini` on one line:
the `Login=` rewrite (when a login was given) followed by the `Server=`
rewrite (when a server was given).  `applyServer server (applyLogin
login lines)` equals `lines.map (subLine login server)` (proved below);
this single-pass form is what the idempotence analysis uses. -/
def subLine (login server : Option Line) (s : Line) : Line :=
  let s1 :=
    match login with
    | some l => if loginKey.isPrefixOf s then loginKey ++ l else s
    | none => s
  match server with
  | some v => if serverKey.isPrefixOf s1 then serverKey ++ v else s1
  | none => s1

/-- Number of `Enabled=0`-prefixed lines strictly after the first
`[Experts]`-prefixed line (0 when there is no `[Experts]` line): the
quantity that bounds how many flips successive `_prepare_ini` passes can
still perform. -/
def countZeroAfterExperts : List Line → Nat
  | [] => 0
  | s :: rest =>
      if expertsHeader.isPrefixOf s then
        rest.countP (fun l => enabledZero.isPrefixOf l)
      else countZeroAfterExperts rest

/-- The section header governing line `j` of a config text: the last
line before index `j` that starts with `[`.  Used only to state which
section an `Enabled=0` line belongs to. -/
def lastHeaderBefore (xs : List Line) (j : Nat) : Option Line :=
  ((xs.take j).filter (fun s => s.head? = some '[')).getLast?

/-- A section header other than `[Experts]`, for counterexamples: the
terminal's `common.ini` has sections such as `[Email]` after
`[Experts]`. -/
def emailHeader : Line := ['[', 'E', 'm', 'a', 'i', 'l', ']']

/-! ## State Purger (`_delete_accounts_dat`, identical loop in both servers)

The loop iterates over the resolved `accounts.dat` paths and calls
`os.remove(p)` inside `try: ... except FileNotFoundError: pass`.  Only
`FileNotFoundError` is caught; any other exception raised by `os.remove`
(e.g. `PermissionError`) propagates out of the function at once. -/

/-- Outcome of `os.remove` on one `accounts.dat` path. -/
inductive RemoveOutcome where
  | removed
  | notFound
  | accessError
  deriving DecidableEq

/-- The deletion loop of `_delete_accounts_dat`, over the outcome of
`os.remove` at each path in order; `Except.error i` means the exception
raised at the path of index `i` escaped to the caller. -/
def deleteLoop : Nat → List RemoveOutcome → Except Nat Unit
  | _, [] => Except.ok ()
  | i, o :: rest =>
      match o with
      | RemoveOutcome.removed => deleteLoop (i + 1) rest
      | RemoveOutcome.notFound => deleteLoop (i + 1) rest
      | RemoveOutcome.accessError => Except.error i

/-- `_delete_accounts_dat` (`mt5_server.py` lines 93-103,
`rpyc_server.py` lines 69-82). -/
def deleteAccountsDat (outcomes : List RemoveOutcome) : Except Nat Unit :=
  deleteLoop 0 outcomes

/-! ## Session Controller (`_h_initialize` / `exposed_initialize`)

The `MetaTrader5` capability interface is a deterministic stub: the
`n`-th `initialize` call returns `initResult n`, the `n`-th
`terminal_info` call returns `none` (python `None`) or
`some trade_allowed`, and the `n`-th `last_error` call returns
`lastErr n`.  Each handler is embedded as a pure function returning its
response together with the ordered list of side-effecting actions it
performed. -/

/-- One observable side-effecting step of a handler. -/
inductive Action where
  | initTerminal
  | terminalInfo
  | shutdown
  | killTerminal
  | prepareIni
  | deleteAccounts
  | sleep (seconds : Nat)
  | lastError
  deriving DecidableEq

/-- Deterministic behaviour of the terminal capability interface,
indexed by how many calls of each kind were already made. -/
structure Stub where
  initResult : Nat → Bool
  tradeAllowed : Nat → Option Bool
  lastErr : Nat → Int × String

/-- The JSON response of the `initialize` endpoint: `{"ok": true}` or
`{"ok": false, "last_error": [code, message]}`. -/
inductive InitResponse where
  | ok
  | fail (e : Int × String)
  deriving DecidableEq

/-- Actions before the first `initialize` in `_h_initialize`
(`mt5_server.py` lines 200-202): `_prepare_ini` only when `login or
server` is truthy, then `_delete_accounts_dat` unconditionally. -/
def httpPre (creds : Bool) : List Action :=
  (if creds then [Action.prepareIni] else []) ++ [Action.deleteAccounts]

/-- The restart cycle of `_h_initialize` (lines 214-219 and 235-240):
`mt5.shutdown()`, `_kill_terminal()`, `_prepare_ini(...)`,
`_delete_accounts_dat()`, `time.sleep(2)`, second `mt5.initialize`. -/
def restartActs : List Action :=
  [Action.shutdown, Action.killTerminal, Action.prepareIni,
   Action.deleteAccounts, Action.sleep 2, Action.initTerminal]

/-- `_h_initialize` (`mt5_server.py` lines 194-248): the HTTP adapter's
initialize operation, with `creds` the truth value of `login or server`.
On first-initialize success it queries `terminal_info`; a report of
`trade_allowed == False` triggers one restart cycle whose second
`initialize` result decides the response (a trailing `terminal_info` is
queried for logging only).  On first-initialize failure, `last_error` is
read and the restart cycle runs exactly when its code is `-10005` or
`-10003`; the retry's `last_error` (second read) is reported when the
retry fails, and any other code is reported immediately. -/
def h_init (stub : Stub) (creds : Bool) : InitResponse × List Action :=
  let log0 := httpPre creds ++ [Action.initTerminal]
  if stub.initResult 0 then
    let log1 := log0 ++ [Action.terminalInfo]
    match stub.tradeAllowed 0 with
    | some false =>
        let log2 := log1 ++ restartActs
        if stub.initResult 1 then
          (InitResponse.ok, log2 ++ [Action.terminalInfo])
        else (InitResponse.fail (stub.lastErr 0), log2 ++ [Action.lastError])
    | _ => (InitResponse.ok, log1)
  else
    let e := stub.lastErr 0
    let log1 := log0 ++ [Action.lastError]
    if e.1 = -10005 ∨ e.1 = -10003 then
      let log2 := log1 ++ restartActs
      if stub.initResult 1 then (InitResponse.ok, log2)
      else (InitResponse.fail (stub.lastErr 1), log2 ++ [Action.lastError])
    else (InitResponse.fail e, log1)

/-- Actions before the first `initialize` in `exposed_initialize`
(`rpyc_server.py` lines 101-105): when `login or server` is truthy,
`_delete_accounts_dat()` then `_prepare_ini(...)`; nothing otherwise. -/
def rpycPre (creds : Bool) : List Action :=
  if creds then [Action.deleteAccounts, Action.prepareIni] else []

/-- The restart cycle of `exposed_initialize` (lines 114-118):
`mt5.shutdown()`, `_kill_terminal()`, `_prepare_ini(...)`,
`time.sleep(2)`, second `mt5.initialize` — with no
`_delete_accounts_dat` step. -/
def rpycRestartActs : List Action :=
  [Action.shutdown, Action.killTerminal, Action.prepareIni,
   Action.sleep 2, Action.initTerminal]

/-- `MT5Service.exposed_initialize` (`rpyc_server.py` lines 100-123):
the object-RPC adapter's initialize operation.  A truthy first
`initialize` returns `True` at once — no `terminal_info` query and no
trade-disabled recovery.  On failure, the same two codes trigger the
restart cycle (without purge); the final `last_error` read on a failed
retry is only printed, and the method returns `False`. -/
def rpyc_init (stub : Stub) (creds : Bool) : Bool × List Action :=
  let log0 := rpycPre creds ++ [Action.initTerminal]
  if stub.initResult 0 then (true, log0)
  else
    let e := stub.lastErr 0
    let log1 := log0 ++ [Action.lastError]
    if e.1 = -10005 ∨ e.1 = -10003 then
      let log2 := log1 ++ rpycRestartActs
      if stub.initResult 1 then (true, log2)
      else (false, log2 ++ [Action.lastError])
    else (false, log1)

/-! ## Command Dispatcher / HTTP adapter (`do_POST` and handlers)

A decoded JSON body is an association list from field names to values
of an abstract value type `α`; `embedObj` embeds a whole decoded object
back into `α` (python has a single value space, so passing "the whole
body" and passing "one field's value" land in the same argument
position of the capability call). -/

/-- A decoded JSON object body. -/
abbrev Body (α : Type) := List (String × α)

/-- A JSON payload successfully sent back by a handler via
`_send_json` (always with HTTP status 200): either the structured
result (`info._asdict()` or similar) or
`{"error": true, "last_error": [code, message]}`. -/
inductive JsonOut (α : Type) where
  | record (r : Body α)
  | errorLast (e : Int × String)
  deriving DecidableEq

/-- A complete HTTP response of `do_POST`: a handler's JSON payload, or
an `{"error": true, "message": msg}` response produced by
`_send_error`. -/
inductive HttpResp (α : Type) where
  | json (status : Nat) (out : JsonOut α)
  | errMsg (status : Nat) (msg : String)
  deriving DecidableEq

/-- `MT5Handler.do_POST` (`mt5_server.py` lines 168-183) around one
route handler: an unparsable body gets `_send_error(..., 400)` (default
status); an unknown path gets status 404; an exception escaping the
handler is caught and reported as `Internal error: ...` with status
500.  A handler is a function from the decoded body to `Except`:
`Except.error k` models an uncaught python exception (for the handlers
embedded here, a `KeyError` on the missing field `k`, raised before any
capability call, hence with no actions performed). -/
def do_POST {α γ : Type} (parsed : Option (Body α))
    (route : Option (Body α → Except String (JsonOut α × List γ))) :
    HttpResp α × List γ :=
  match parsed with
  | none => (HttpResp.errMsg 400 "Invalid JSON", [])
  | some b =>
      match route with
      | none => (HttpResp.errMsg 404 "Unknown endpoint", [])
      | some h =>
          match h b with
          | Except.ok (out, acts) => (HttpResp.json 200 out, acts)
          | Except.error k => (HttpResp.errMsg 500 ("Internal error: " ++ k), [])

/-- `_h_symbol_info` (`mt5_server.py` lines 303-308): `b["symbol"]` is
read first — a missing field raises `KeyError` before `mt5.symbol_info`
is called; otherwise `mt5.symbol_info` is invoked (logged as the list
of arguments passed to it) and a `None` result is reported as
`{"error": true, "last_error": ...}`. -/
def h_symbol_info {α : Type} (symbolInfo : α → Option (Body α))
    (lastErr : Int × String) (b : Body α) :
    Except String (JsonOut α × List α) :=
  match b.lookup "symbol" with
  | none => Except.error "symbol"
  | some sym =>
      match symbolInfo sym with
      | none => Except.ok (JsonOut.errorLast lastErr, [sym])
      | some info => Except.ok (JsonOut.record info, [sym])

/-- `_h_order_send` (`mt5_server.py` lines 324-330):
`request = b.get("request", b)` — the `request` field's value when
present, the entire decoded body otherwise — is passed to
`mt5.order_send` (logged as the list of arguments passed to it). -/
def h_order_send {α : Type} (embedObj : Body α → α)
    (orderSend : α → Option (Body α)) (lastErr : Int × String)
    (b : Body α) : JsonOut α × List α :=
  let request :=
    match b.lookup "request" with
    | some v => v
    | none => embedObj b
  match orderSend request with
  | none => (JsonOut.errorLast lastErr, [request])
  | some r => (JsonOut.record r, [request])

/-- `_h_order_check` (`mt5_server.py` lines 333-339): identical shape to
`_h_order_send`, over `mt5.order_check`. -/
def h_order_check {α : Type} (embedObj : Body α → α)
    (orderCheck : α → Option (Body α)) (lastErr : Int × String)
    (b : Body α) : JsonOut α × List α :=
  let request :=
    match b.lookup "request" with
    | some v => v
    | none => embedObj b
  match orderCheck request with
  | none => (JsonOut.errorLast lastErr, [request])
  | some r => (JsonOut.record r, [request])

/-- Capability stub for the C1 counterexample: the first `initialize`
succeeds, `terminal_info` always reports trading disabled, the second
`initialize` fails. -/
def c1stub : Stub :=
  ⟨fun n => n == 0, fun _ => some false, fun _ => (-10004, "no ipc")⟩

/-- Capability stub for the C1 witness: `initialize` fails with an
unclassified code. -/
def c1wstub : Stub :=
  ⟨fun _ => false, fun _ => none, fun _ => (1, "generic")⟩

/-- Capability stub for the C2 counterexample: every `initialize`
succeeds, every `terminal_info` reports trading disabled. -/
def c2stub : Stub :=
  ⟨fun _ => true, fun _ => some false, fun _ => (0, "")⟩

/-- Capability stub for the C2 witness: first `initialize` succeeds
with trading disabled, the retry's `initialize` fails. -/
def c2wstub : Stub :=
  ⟨fun n => n == 0, fun _ => some false, fun _ => (5, "w")⟩

/-- Capability stub for the C3 counterexample: `initialize` always
fails with the recoverable code `-10005`. -/
def c3stub : Stub :=
  ⟨fun _ => false, fun _ => none, fun _ => (-10005, "ipc timeout")⟩

/-- Capability stub for the C3 witness: `initialize` fails with an
unclassified code. -/
def c3wstub : Stub :=
  ⟨fun _ => false, fun _ => none, fun _ => (-2, "fatal")⟩

/-- Capability stub for the C4 counterexample: every `initialize`
succeeds, every `terminal_info` reports trading disabled. -/
def c4stub : Stub :=
  ⟨fun _ => true, fun _ => some false, fun _ => (0, "")⟩

/-- Capability stub for the C4 witness. -/
def c4wstub : Stub :=
  ⟨fun _ => true, fun _ => some false, fun _ => (3, "x")⟩

-- sanity checks of the embedding on concrete texts
example :
    prepareText (some ['7']) none
      [['L', 'o', 'g', 'i', 'n', '=', '3'], ['A', '=', 'b']]
      = [['L', 'o', 'g', 'i', 'n', '=', '7'], ['A', '=', 'b']] := by decide

example :
    prepareText none none [expertsHeader, enabledZero]
      = [expertsHeader, enabledOne] := by decide

example :
    prepareText none none [enabledZero]
      = [enabledZero] := by decide

/-! ## Helper lemmas on line prefixes

The regex key prefixes are concrete character lists, so a mismatch
between two of them is decided by the kernel; the facts below are the
only prefix arithmetic the config-patcher proofs need. -/

/-- A list is a Boolean prefix of itself followed by anything. -/
theorem isPrefixOf_self_append (p t : Line) : p.isPrefixOf (p ++ t) = true := by
  induction p with
  | nil => cases t <;> rfl
  | cons c p ih => simp [List.isPrefixOf, ih]

/-- A Boolean prefix is an initial segment. -/
theorem eq_append_of_isPrefixOf {p s : Line} (h : p.isPrefixOf s = true) :
    ∃ t, s = p ++ t := by
  simp at h
  obtain ⟨t, ht⟩ := h
  exact ⟨t, ht.symm⟩

theorem server_not_pre_login (t : Line) :
    serverKey.isPrefixOf (loginKey ++ t) = false := rfl

theorem login_not_pre_server (t : Line) :
    loginKey.isPrefixOf (serverKey ++ t) = false := rfl

theorem header_not_pre_login (t : Line) :
    expertsHeader.isPrefixOf (loginKey ++ t) = false := rfl

theorem header_not_pre_server (t : Line) :
    expertsHeader.isPrefixOf (serverKey ++ t) = false := rfl

theorem zero_not_pre_login (t : Line) :
    enabledZero.isPrefixOf (loginKey ++ t) = false := rfl

theorem zero_not_pre_server (t : Line) :
    enabledZero.isPrefixOf (serverKey ++ t) = false := rfl

theorem zero_not_pre_one (t : Line) :
    enabledZero.isPrefixOf (enabledOne ++ t) = false := rfl

theorem login_not_pre_one (t : Line) :
    loginKey.isPrefixOf (enabledOne ++ t) = false := rfl

theorem server_not_pre_one (t : Line) :
    serverKey.isPrefixOf (enabledOne ++ t) = false := rfl

/-- The flipped line never starts with `Enabled=0` again. -/
theorem zero_not_pre_flip (s : Line) :
    enabledZero.isPrefixOf (flipLine s) = false :=
  zero_not_pre_one (s.drop 9)

/-! ## Structure of `flipFirstEnabled` and `expertsFlip` -/

/-- `flipFirstEnabled` finds nothing exactly when no line starts with
`Enabled=0`. -/
theorem flipFirstEnabled_eq_none {xs : List Line} :
    flipFirstEnabled xs = none ↔
      ∀ s ∈ xs, enabledZero.isPrefixOf s = false := by
  induction xs with
  | nil => simp [flipFirstEnabled]
  | cons s rest ih =>
      cases hs : enabledZero.isPrefixOf s with
      | true => simp [flipFirstEnabled, hs, List.forall_mem_cons]
      | false =>
          cases hr : flipFirstEnabled rest with
          | none =>
              simp [flipFirstEnabled, hs, hr, List.forall_mem_cons, ← ih]
          | some r2 =>
              simp [flipFirstEnabled, hs, hr, List.forall_mem_cons, ← ih]

/-- Decomposition of a successful `flipFirstEnabled`: the flipped line
is the first `Enabled=0` line, everything else is untouched. -/
theorem flipFirstEnabled_eq_some {xs ys : List Line}
    (h : flipFirstEnabled xs = some ys) :
    ∃ m e b, xs = m ++ e :: b ∧
      (∀ s ∈ m, enabledZero.isPrefixOf s = false) ∧
      enabledZero.isPrefixOf e = true ∧ ys = m ++ flipLine e :: b := by
  induction xs generalizing ys with
  | nil => simp [flipFirstEnabled] at h
  | cons s rest ih =>
      cases hs : enabledZero.isPrefixOf s with
      | true =>
          simp only [flipFirstEnabled, hs, if_true] at h
          refine ⟨[], s, rest, rfl, by simp, hs, ?_⟩
          simpa using (Option.some.inj h).symm
      | false =>
          cases hr : flipFirstEnabled rest with
          | none => simp [flipFirstEnabled, hs, hr] at h
          | some r2 =>
              simp only [flipFirstEnabled, hs] at h
              rw [hr] at h
              have hys : s :: r2 = ys := Option.some.inj h
              obtain ⟨m, e, b, h1, h2, h3, h4⟩ := ih hr
              refine ⟨s :: m, e, b, ?_, ?_, h3, ?_⟩
              · rw [h1]; rfl
              · intro x hx
                rcases List.mem_cons.mp hx with rfl | hx
                · exact hs
                · exact h2 x hx
              · rw [← hys, h4]; rfl

/-- When no line starts with `Enabled=0`, `expertsFlip` is the
identity. -/
theorem expertsFlip_of_no_zero {xs : List Line}
    (h : ∀ s ∈ xs, enabledZero.isPrefixOf s = false) :
    expertsFlip xs = xs := by
  induction xs with
  | nil => rfl
  | cons s rest ih =>
      have hrest : ∀ x ∈ rest, enabledZero.isPrefixOf x = false :=
        fun x hx => h x (List.mem_cons_of_mem _ hx)
      cases hh : expertsHeader.isPrefixOf s with
      | true =>
          have hn : flipFirstEnabled rest = none :=
            flipFirstEnabled_eq_none.mpr hrest
          simp [expertsFlip, hh, hn, ih hrest]
      | false => simp [expertsFlip, hh, ih hrest]

/-- Full characterization of one `expertsFlip` pass: either it changes
nothing, or the text splits as `a ++ hd :: (m ++ e :: b)` where `hd` is
the first `[Experts]` line, `e` is the first `Enabled=0` line after it
(no constraint keeps `m` free of other section headers!), and exactly
`e` is flipped. -/
theorem expertsFlip_decomp (xs : List Line) :
    expertsFlip xs = xs ∨
    ∃ a hd m e b, xs = a ++ hd :: (m ++ e :: b) ∧
      expertsHeader.isPrefixOf hd = true ∧
      (∀ s ∈ a, expertsHeader.isPrefixOf s = false) ∧
      (∀ s ∈ m, enabledZero.isPrefixOf s = false) ∧
      enabledZero.isPrefixOf e = true ∧
      expertsFlip xs = a ++ hd :: (m ++ flipLine e :: b) := by
  induction xs with
  | nil => exact Or.inl rfl
  | cons s rest ih =>
      cases hh : expertsHeader.isPrefixOf s with
      | true =>
          cases hr : flipFirstEnabled rest with
          | none =>
              have hall := flipFirstEnabled_eq_none.mp hr
              exact Or.inl (by simp [expertsFlip, hh, hr, expertsFlip_of_no_zero hall])
          | some rest2 =>
              obtain ⟨m, e, b, h1, h2, h3, h4⟩ := flipFirstEnabled_eq_some hr
              refine Or.inr ⟨[], s, m, e, b, by simp [h1], hh, by simp, h2, h3, ?_⟩
              simp [expertsFlip, hh, hr, h4]
      | false =>
          rcases ih with h | ⟨a, hd, m, e, b, h1, hh2, ha, hm, hz, h2⟩
          · exact Or.inl (by simp [expertsFlip, hh, h])
          · refine Or.inr ⟨s :: a, hd, m, e, b, by simp [h1], hh2, ?_, hm, hz, ?_⟩
            · intro x hx
              rcases List.mem_cons.mp hx with rfl | hx
              · exact hh
              · exact ha x hx
            · simp [expertsFlip, hh, h2]

/-- Every line of `expertsFlip xs` is a line of `xs` or the flip of an
`Enabled=0` line of `xs`. -/
theorem mem_expertsFlip {z : Line} {xs : List Line}
    (hz : z ∈ expertsFlip xs) :
    z ∈ xs ∨ ∃ e ∈ xs, enabledZero.isPrefixOf e = true ∧ z = flipLine e := by
  rcases expertsFlip_decomp xs with h | ⟨a, hd, m, e, b, h1, _, _, _, hzero, h2⟩
  · rw [h] at hz; exact Or.inl hz
  · rw [h2] at hz
    rw [h1]
    simp only [List.mem_append, List.mem_cons] at hz ⊢
    rcases hz with hz | hz | hz | hz | hz
    · exact Or.inl (Or.inl hz)
    · exact Or.inl (Or.inr (Or.inl hz))
    · exact Or.inl (Or.inr (Or.inr (Or.inl hz)))
    · exact Or.inr ⟨e, by simp, hzero, hz⟩
    · exact Or.inl (Or.inr (Or.inr (Or.inr (Or.inr hz))))

/-! ## Counting `Enabled=0` lines across passes -/

/-- The zero-count after the first `[Experts]` line is bounded by the
total zero-count. -/
theorem countZeroAfterExperts_le (xs : List Line) :
    countZeroAfterExperts xs ≤ xs.countP (fun l => enabledZero.isPrefixOf l) := by
  induction xs with
  | nil => exact Nat.le_refl 0
  | cons s rest ih =>
      cases hh : expertsHeader.isPrefixOf s <;>
        cases hz : enabledZero.isPrefixOf s <;>
        simp [countZeroAfterExperts, hh, hz, List.countP_cons] <;> omega

/-- When no `Enabled=0` line follows the first `[Experts]` line, the
pass is the identity. -/
theorem expertsFlip_of_countZero {xs : List Line}
    (h : countZeroAfterExperts xs = 0) : expertsFlip xs = xs := by
  induction xs with
  | nil => rfl
  | cons s rest ih =>
      cases hh : expertsHeader.isPrefixOf s with
      | true =>
          have h0 : rest.countP (fun l => enabledZero.isPrefixOf l) = 0 := by
            simpa [countZeroAfterExperts, hh] using h
          have hall : ∀ x ∈ rest, enabledZero.isPrefixOf x = false := by
            intro x hx
            have hnot := List.countP_eq_zero.mp h0 x hx
            cases hb : enabledZero.isPrefixOf x with
            | false => rfl
            | true => exact absurd hb hnot
          have hn : flipFirstEnabled rest = none :=
            flipFirstEnabled_eq_none.mpr hall
          simp [expertsFlip, hh, hn, expertsFlip_of_no_zero hall]
      | false =>
          have h' : countZeroAfterExperts rest = 0 := by
            simpa [countZeroAfterExperts, hh] using h
          simp [expertsFlip, hh, ih h']

/-- One pass over a text with at most one `Enabled=0` line after the
first `[Experts]` line consumes them all. -/
theorem countZero_expertsFlip {xs : List Line}
    (h : countZeroAfterExperts xs ≤ 1) :
    countZeroAfterExperts (expertsFlip xs) = 0 := by
  induction xs with
  | nil => rfl
  | cons s rest ih =>
      cases hh : expertsHeader.isPrefixOf s with
      | true =>
          have hc : rest.countP (fun l => enabledZero.isPrefixOf l) ≤ 1 := by
            simpa [countZeroAfterExperts, hh] using h
          cases hr : flipFirstEnabled rest with
          | none =>
              have hall := flipFirstEnabled_eq_none.mp hr
              have h0 : rest.countP (fun l => enabledZero.isPrefixOf l) = 0 :=
                List.countP_eq_zero.mpr (by intro a ha; simp [hall a ha])
              simp [expertsFlip, hh, hr, countZeroAfterExperts,
                expertsFlip_of_no_zero hall, h0]
          | some rest2 =>
              obtain ⟨m, e, b, h1, h2, h3, h4⟩ := flipFirstEnabled_eq_some hr
              have hm : m.countP (fun l => enabledZero.isPrefixOf l) = 0 :=
                List.countP_eq_zero.mpr (by intro a ha; simp [h2 a ha])
              have hb : b.countP (fun l => enabledZero.isPrefixOf l) = 0 := by
                rw [h1, List.countP_append, List.countP_cons_of_pos] at hc
                · omega
                · exact h3
              have hflip : expertsFlip (s :: rest) = s :: rest2 := by
                simp only [expertsFlip, hh, if_true, hr]
              rw [hflip]
              have h5 : countZeroAfterExperts (s :: rest2)
                  = rest2.countP (fun l => enabledZero.isPrefixOf l) := by
                simp only [countZeroAfterExperts, hh, if_true]
              rw [h5, h4, List.countP_append, List.countP_cons_of_neg]
              · rw [hm, hb]
              · simp [zero_not_pre_flip]
      | false =>
          have h' : countZeroAfterExperts rest ≤ 1 := by
            simpa [countZeroAfterExperts, hh] using h
          simp [expertsFlip, hh, countZeroAfterExperts, ih h']

/-- The Experts pass is idempotent on texts with at most one
`Enabled=0` line after the first `[Experts]` line. -/
theorem expertsFlip_idem {xs : List Line}
    (h : countZeroAfterExperts xs ≤ 1) :
    expertsFlip (expertsFlip xs) = expertsFlip xs :=
  expertsFlip_of_countZero (countZero_expertsFlip h)

/-! ## The Login/Server substitutions as one map -/

/-- The two key substitutions form a single `map`. -/
theorem applyBoth_eq_map (login server : Option Line) (xs : List Line) :
    applyServer server (applyLogin login xs) = xs.map (subLine login server) := by
  cases login with
  | none =>
      cases server with
      | none =>
          simp only [applyLogin, applyServer]
          have h : ∀ a ∈ xs, id a = subLine none none a := fun a _ => rfl
          rw [← List.map_congr_left h, List.map_id]
      | some v =>
          simp only [applyLogin, applyServer]
          exact List.map_congr_left fun s _ => rfl
  | some l =>
      cases server with
      | none =>
          simp only [applyLogin, applyServer]
          exact List.map_congr_left fun s _ => rfl
      | some v =>
          simp only [applyLogin, applyServer, List.map_map]
          exact List.map_congr_left fun s _ => rfl

/-- Case analysis of `subLine`: a line is untouched, rewritten to
`Login=<login>`, or rewritten to `Server=<server>`. -/
theorem subLine_cases (login server : Option Line) (s : Line) :
    subLine login server s = s
    ∨ (∃ l, login = some l ∧ loginKey.isPrefixOf s = true ∧
        subLine login server s = loginKey ++ l)
    ∨ (∃ v, server = some v ∧ serverKey.isPrefixOf s = true ∧
        subLine login server s = serverKey ++ v) := by
  cases login with
  | none =>
      cases server with
      | none => exact Or.inl rfl
      | some v =>
          cases hp : serverKey.isPrefixOf s with
          | true => exact Or.inr (Or.inr ⟨v, rfl, rfl, by simp [subLine, hp]⟩)
          | false => exact Or.inl (by simp [subLine, hp])
  | some l =>
      cases hl : loginKey.isPrefixOf s with
      | true =>
          cases server with
          | none => exact Or.inr (Or.inl ⟨l, rfl, rfl, by simp [subLine, hl]⟩)
          | some v =>
              exact Or.inr (Or.inl ⟨l, rfl, rfl,
                by simp [subLine, hl, server_not_pre_login]⟩)
      | false =>
          cases server with
          | none => exact Or.inl (by simp [subLine, hl])
          | some v =>
              cases hp : serverKey.isPrefixOf s with
              | true => exact Or.inr (Or.inr ⟨v, rfl, rfl, by simp [subLine, hl, hp]⟩)
              | false => exact Or.inl (by simp [subLine, hl, hp])

/-- A line starting with neither `Login=` nor `Server=` is untouched by
the substitutions. -/
theorem subLine_fix {login server : Option Line} {s : Line}
    (h1 : loginKey.isPrefixOf s = false) (h2 : serverKey.isPrefixOf s = false) :
    subLine login server s = s := by
  rcases subLine_cases login server s with h | ⟨l, _, hl, _⟩ | ⟨v, _, hv, _⟩
  · exact h
  · simp [hl] at h1
  · simp [hv] at h2

/-- The key substitutions are idempotent per line. -/
theorem subLine_idem (login server : Option Line) (s : Line) :
    subLine login server (subLine login server s) = subLine login server s := by
  rcases subLine_cases login server s with h | ⟨l, hlog, hl, hs⟩ | ⟨v, hser, hv, hs⟩
  · rw [h]; exact h
  · rw [hs]; subst hlog
    cases server with
    | none => simp [subLine, isPrefixOf_self_append]
    | some v => simp [subLine, isPrefixOf_self_append, server_not_pre_login]
  · rw [hs]; subst hser
    cases login with
    | none => simp [subLine, isPrefixOf_self_append]
    | some l => simp [subLine, isPrefixOf_self_append, login_not_pre_server]

/-- The key substitutions do not create or destroy an `[Experts]`
header. -/
theorem subLine_header (login server : Option Line) (s : Line) :
    expertsHeader.isPrefixOf (subLine login server s)
      = expertsHeader.isPrefixOf s := by
  rcases subLine_cases login server s with h | ⟨l, _, hl, hs⟩ | ⟨v, _, hv, hs⟩
  · rw [h]
  · obtain ⟨t, ht⟩ := eq_append_of_isPrefixOf hl
    rw [hs, ht, header_not_pre_login, header_not_pre_login]
  · obtain ⟨t, ht⟩ := eq_append_of_isPrefixOf hv
    rw [hs, ht, header_not_pre_server, header_not_pre_server]

/-- The key substitutions do not create or destroy an `Enabled=0`
line. -/
theorem subLine_zero (login server : Option Line) (s : Line) :
    enabledZero.isPrefixOf (subLine login server s)
      = enabledZero.isPrefixOf s := by
  rcases subLine_cases login server s with h | ⟨l, _, hl, hs⟩ | ⟨v, _, hv, hs⟩
  · rw [h]
  · obtain ⟨t, ht⟩ := eq_append_of_isPrefixOf hl
    rw [hs, ht, zero_not_pre_login, zero_not_pre_login]
  · obtain ⟨t, ht⟩ := eq_append_of_isPrefixOf hv
    rw [hs, ht, zero_not_pre_server, zero_not_pre_server]

/-- Status-preserving maps keep the zero-count after the first
`[Experts]` line. -/
theorem countZeroAfterExperts_map (g : Line → Line)
    (hh : ∀ s, expertsHeader.isPrefixOf (g s) = expertsHeader.isPrefixOf s)
    (hz : ∀ s, enabledZero.isPrefixOf (g s) = enabledZero.isPrefixOf s)
    (xs : List Line) :
    countZeroAfterExperts (xs.map g) = countZeroAfterExperts xs := by
  induction xs with
  | nil => rfl
  | cons s rest ih =>
      cases hhead : expertsHeader.isPrefixOf s with
      | true =>
          have hg : expertsHeader.isPrefixOf (g s) = true := by rw [hh s, hhead]
          simp only [List.map_cons, countZeroAfterExperts, hg, hhead, if_true,
            List.countP_map]
          exact List.countP_congr (fun a _ => by simp [Function.comp, hz a])
      | false =>
          have hg : expertsHeader.isPrefixOf (g s) = false := by rw [hh s, hhead]
          simp only [List.map_cons, countZeroAfterExperts, hg, hhead]
          simpa using ih

/-- After an Experts pass over an already-substituted text, running the
substitutions again changes nothing. -/
theorem map_subLine_expertsFlip (login server : Option Line) (xs : List Line) :
    (expertsFlip (xs.map (subLine login server))).map (subLine login server)
      = expertsFlip (xs.map (subLine login server)) := by
  have key : ∀ z ∈ expertsFlip (xs.map (subLine login server)),
      subLine login server z = z := by
    intro z hz
    rcases mem_expertsFlip hz with hz | ⟨e, _, _, rfl⟩
    · obtain ⟨x, _, rfl⟩ := List.mem_map.mp hz
      exact subLine_idem login server x
    · show subLine login server (enabledOne ++ e.drop 9) = enabledOne ++ e.drop 9
      exact subLine_fix (login_not_pre_one _) (server_not_pre_one _)
  have h2 : (expertsFlip (xs.map (subLine login server))).map (subLine login server)
      = (expertsFlip (xs.map (subLine login server))).map id :=
    List.map_congr_left (fun a ha => key a ha)
  simpa using h2

/-! ## Pointwise behaviour of the Experts pass -/

/-- Two lists that differ in one middle element agree everywhere else
positionally. -/
theorem getElem_append_mid (p q : List Line) (e f : Line) (j : Nat) :
    ((p ++ e :: q)[j]? = (p ++ f :: q)[j]?) ∨
    (j = p.length ∧ (p ++ e :: q)[j]? = some e ∧
      (p ++ f :: q)[j]? = some f) := by
  rcases Nat.lt_trichotomy j p.length with hj | hj | hj
  · exact Or.inl (by rw [List.getElem?_append_left hj, List.getElem?_append_left hj])
  · subst hj
    refine Or.inr ⟨rfl, ?_, ?_⟩ <;>
      · rw [List.getElem?_append_right (Nat.le_refl _)]
        simp
  · refine Or.inl ?_
    rw [List.getElem?_append_right (Nat.le_of_lt hj),
      List.getElem?_append_right (Nat.le_of_lt hj)]
    rcases Nat.exists_eq_add_of_lt hj with ⟨k, rfl⟩
    have h2 : p.length + k + 1 - p.length = k + 1 := by omega
    rw [h2]
    simp

/-- Pointwise form of an Experts pass: every position is unchanged or
holds the flip of an `Enabled=0` line of the original text. -/
theorem expertsFlip_getElem (xs : List Line) (j : Nat) :
    (expertsFlip xs)[j]? = xs[j]? ∨
    ∃ s, xs[j]? = some s ∧ enabledZero.isPrefixOf s = true ∧
      (expertsFlip xs)[j]? = some (flipLine s) := by
  rcases expertsFlip_decomp xs with h | ⟨a, hd, m, e, b, h1, _, _, _, hz, h2⟩
  · exact Or.inl (by rw [h])
  · rw [h2, h1]
    have e1 : a ++ hd :: (m ++ e :: b) = (a ++ hd :: m) ++ e :: b := by simp
    have e2 : a ++ hd :: (m ++ flipLine e :: b)
        = (a ++ hd :: m) ++ flipLine e :: b := by simp
    rw [e1, e2]
    rcases getElem_append_mid (a ++ hd :: m) b e (flipLine e) j with
      hj | ⟨_, hje, hjf⟩
    · exact Or.inl hj.symm
    · exact Or.inr ⟨e, hje, hz, hjf⟩

/-! ## C1 — cross-adapter equivalence of the initialize operation -/

/-- C1 counterexample: against one and the same capability-interface
behaviour (first `initialize` truthy, `terminal_info` reporting
`trade_allowed == False`, second `initialize` falsy) the HTTP adapter
answers `{"ok": false, "last_error": [-10004, ...]}` while the
object-RPC adapter answers `True`: the two adapters do not run the same
recovery state machine — `exposed_initialize` has no trade-disabled
check at all. -/
theorem C1_counterexample :
    (h_init c1stub true).1 = InitResponse.fail (-10004, "no ipc") ∧
    (rpyc_init c1stub true).1 = true :=
  ⟨rfl, rfl⟩

/-- C1 (amended): the two adapters produce the same success/failure
outcome whenever the first `initialize` fails (both then run the same
classified retry on the codes `-10005`/`-10003`) or succeeds without a
`trade_allowed == False` report; the trade-disabled recovery exists
only in the HTTP adapter, so identical behaviours can diverge exactly
when the first `initialize` succeeds and the status query reports
trading disabled. -/
theorem C1_cross_adapter_eq (stub : Stub) (creds : Bool)
    (h : stub.initResult 0 = false ∨ stub.tradeAllowed 0 ≠ some false) :
    ((h_init stub creds).1 = InitResponse.ok ↔
      (rpyc_init stub creds).1 = true) := by
  cases hi : stub.initResult 0 with
  | false =>
      by_cases hrec : ((stub.lastErr 0).1 = -10005 ∨ (stub.lastErr 0).1 = -10003)
      · cases h1 : stub.initResult 1 with
        | false => simp [h_init, rpyc_init, hi, hrec, h1]
        | true => simp [h_init, rpyc_init, hi, hrec, h1]
      · simp [h_init, rpyc_init, hi, hrec]
  | true =>
      have hti : stub.tradeAllowed 0 ≠ some false := by
        rcases h with h1 | h2
        · rw [hi] at h1; cases h1
        · exact h2
      cases hta : stub.tradeAllowed 0 with
      | none => simp [h_init, rpyc_init, hi, hta]
      | some b =>
          cases b with
          | false => exact absurd hta hti
          | true => simp [h_init, rpyc_init, hi, hta]

/-- Witness for `C1_cross_adapter_eq` at a concrete stub. -/
theorem C1_cross_adapter_eq_witness :
    (c1wstub.initResult 0 = false ∨ c1wstub.tradeAllowed 0 ≠ some false) ∧
    ((h_init c1wstub true).1 = InitResponse.ok ↔
      (rpyc_init c1wstub true).1 = true) :=
  ⟨Or.inl rfl, C1_cross_adapter_eq c1wstub true (Or.inl rfl)⟩

/-! ## C2 — outcome of the trade-disabled retry -/

/-- C2 counterexample: with every `initialize` truthy and every
`terminal_info` reporting trading disabled, the retried `initialize`
also leaves the terminal trade-disabled, yet `_h_initialize` answers
`{"ok": true}` — not failure as the claim states (the code only logs
`trade_allowed` after the retry). -/
theorem C2_counterexample :
    (h_init c2stub true).1 = InitResponse.ok ∧
    c2stub.tradeAllowed 1 = some false :=
  ⟨rfl, rfl⟩

/-- C2 (amended): when the first `initialize` succeeds but the status
query reports trading disabled, exactly one restart-and-retry cycle is
performed and the retried `initialize` call's boolean outcome is the
final result: a truthy retry yields success even when trading is still
disabled (the second status query is only logged); a falsy retry yields
failure with `LastError`. -/
theorem C2_retry_outcome (stub : Stub) (creds : Bool)
    (h0 : stub.initResult 0 = true) (hta : stub.tradeAllowed 0 = some false) :
    ((h_init stub creds).2.count Action.killTerminal = 1 ∧
      (h_init stub creds).2.count Action.initTerminal = 2) ∧
    (stub.initResult 1 = true →
      (h_init stub creds).1 = InitResponse.ok) ∧
    (stub.initResult 1 = false →
      (h_init stub creds).1 = InitResponse.fail (stub.lastErr 0)) := by
  cases h1 : stub.initResult 1 <;> cases creds <;>
    simp [h_init, h0, hta, h1, httpPre, restartActs]

/-- Witness for `C2_retry_outcome` at a concrete stub. -/
theorem C2_retry_outcome_witness :
    c2wstub.initResult 0 = true ∧ c2wstub.tradeAllowed 0 = some false ∧
    c2wstub.initResult 1 = false ∧
    (h_init c2wstub false).1 = InitResponse.fail (c2wstub.lastErr 0) :=
  ⟨rfl, rfl, rfl, (C2_retry_outcome c2wstub false rfl rfl).2.2 rfl⟩

/-! ## C3 — classified retry on initial initialize failure -/

/-- C3 counterexample: on a recoverable failure (`-10005`) the
object-RPC adapter's retry sequence is shutdown → kill → repatch →
wait → retry, with no purge step anywhere — `exposed_initialize` never
calls `_delete_accounts_dat` on this path, so the claimed
shutdown → kill → repatch → purge → wait → retry sequence is not what
runs in that adapter. -/
theorem C3_counterexample :
    (rpyc_init c3stub false).2
        = [Action.initTerminal, Action.lastError, Action.shutdown,
           Action.killTerminal, Action.prepareIni, Action.sleep 2,
           Action.initTerminal, Action.lastError] ∧
    Action.deleteAccounts ∉ (rpyc_init c3stub false).2 := by
  exact ⟨rfl, by decide⟩

/-- C3 (amended): on an initial `initialize` failure both adapters
retry exactly when `LastError`'s code is `-10005` or `-10003`, and for
any other code both return failure immediately with that `LastError`,
with no restart and no second `initialize`; the HTTP adapter's retry
sequence is shutdown → kill → repatch → purge → wait → retry, while the
object-RPC adapter's omits the purge step. -/
theorem C3_classified_retry (stub : Stub) (creds : Bool)
    (h0 : stub.initResult 0 = false) :
    (¬((stub.lastErr 0).1 = -10005 ∨ (stub.lastErr 0).1 = -10003) →
      h_init stub creds
          = (InitResponse.fail (stub.lastErr 0),
             httpPre creds ++ [Action.initTerminal, Action.lastError]) ∧
      rpyc_init stub creds
          = (false, rpycPre creds ++ [Action.initTerminal, Action.lastError])) ∧
    (((stub.lastErr 0).1 = -10005 ∨ (stub.lastErr 0).1 = -10003) →
      (httpPre creds ++ [Action.initTerminal, Action.lastError] ++ restartActs)
          <+: (h_init stub creds).2 ∧
      (rpycPre creds ++ [Action.initTerminal, Action.lastError] ++ rpycRestartActs)
          <+: (rpyc_init stub creds).2) := by
  constructor
  · intro hrec
    constructor <;> simp [h_init, rpyc_init, h0, hrec]
  · intro hrec
    cases h1 : stub.initResult 1 <;> cases creds <;>
      constructor <;>
      simp [h_init, rpyc_init, h0, hrec, h1, httpPre, rpycPre,
        restartActs, rpycRestartActs]

/-- Witness for `C3_classified_retry` at a concrete stub. -/
theorem C3_classified_retry_witness :
    c3wstub.initResult 0 = false ∧
    h_init c3wstub true
        = (InitResponse.fail (-2, "fatal"),
           httpPre true ++ [Action.initTerminal, Action.lastError]) ∧
    rpyc_init c3wstub true
        = (false, rpycPre true ++ [Action.initTerminal, Action.lastError]) :=
  ⟨rfl, ((C3_classified_retry c3wstub true rfl).1 (by decide)).1,
    ((C3_classified_retry c3wstub true rfl).1 (by decide)).2⟩

/-! ## C4 — bounded retry -/

/-- C4 counterexample: with a stub that reports trading disabled on
every `initialize` (both consulted status queries), exactly one restart
cycle occurs — but the call returns success `{"ok": true}`, not failure
as the claim states. -/
theorem C4_counterexample :
    c4stub.initResult 0 = true ∧ c4stub.initResult 1 = true ∧
    c4stub.tradeAllowed 0 = some false ∧ c4stub.tradeAllowed 1 = some false ∧
    (h_init c4stub true).2.count Action.killTerminal = 1 ∧
    (h_init c4stub true).1 = InitResponse.ok := by
  decide

/-- C4 (amended): for every capability behaviour and input, one
initialize call performs at most two `initialize` attempts and at most
one Process Reaper invocation in either adapter (so it never loops);
and when the terminal reports trading disabled at every consulted
status query while `initialize` always succeeds, exactly one restart
cycle occurs and the HTTP adapter returns success (the retry's trade
status is not re-checked), not failure. -/
theorem C4_bounded_retry (stub : Stub) (creds : Bool) :
    ((h_init stub creds).2.count Action.initTerminal ≤ 2 ∧
     (h_init stub creds).2.count Action.killTerminal ≤ 1 ∧
     (rpyc_init stub creds).2.count Action.initTerminal ≤ 2 ∧
     (rpyc_init stub creds).2.count Action.killTerminal ≤ 1) ∧
    (stub.initResult 0 = true → stub.initResult 1 = true →
      stub.tradeAllowed 0 = some false →
      (h_init stub creds).2.count Action.killTerminal = 1 ∧
      (h_init stub creds).1 = InitResponse.ok) := by
  constructor
  · cases hi0 : stub.initResult 0 <;> cases h1 : stub.initResult 1 <;>
      cases creds <;>
      rcases hta : stub.tradeAllowed 0 with _ | ⟨_ | _⟩ <;>
      by_cases hrec : ((stub.lastErr 0).1 = -10005 ∨ (stub.lastErr 0).1 = -10003) <;>
      simp [h_init, rpyc_init, hi0, h1, hta, hrec, httpPre, rpycPre,
        restartActs, rpycRestartActs]
  · intro h0 h1 hta
    cases creds <;>
      simp [h_init, h0, h1, hta, httpPre, restartActs]

/-- Witness for `C4_bounded_retry` at a concrete stub. -/
theorem C4_bounded_retry_witness :
    (h_init c4wstub false).2.count Action.killTerminal = 1 ∧
    (h_init c4wstub false).1 = InitResponse.ok :=
  (C4_bounded_retry c4wstub false).2 rfl rfl rfl

/-! ## C6 — State Purger error behaviour -/

/-- C6 counterexample: a deletion failure other than missing-file (for
example a permissions error) at the very first path escapes
`_delete_accounts_dat` as an exception — the purge does raise to its
caller, contrary to the claim. -/
theorem C6_counterexample :
    deleteAccountsDat [RemoveOutcome.accessError] = Except.error 0 :=
  rfl

/-- Helper: the deletion loop succeeds whenever no path's removal ends
in an uncaught error, whatever the starting index. -/
theorem deleteLoop_ok (i : Nat) (outcomes : List RemoveOutcome)
    (h : ∀ o ∈ outcomes, o ≠ RemoveOutcome.accessError) :
    deleteLoop i outcomes = Except.ok () := by
  induction outcomes generalizing i with
  | nil => rfl
  | cons o rest ih =>
      cases o with
      | removed => exact ih (i + 1) (fun x hx => h x (List.mem_cons_of_mem _ hx))
      | notFound => exact ih (i + 1) (fun x hx => h x (List.mem_cons_of_mem _ hx))
      | accessError => exact absurd rfl (h _ (List.mem_cons_self _ _))

/-- C6 (amended): `_delete_accounts_dat` signals success whenever every
path is either removed or already missing — a missing `accounts.dat` is
silently skipped (`except FileNotFoundError: pass`), so purge is
idempotent; but any other deletion failure is not caught: it propagates
to the caller as an exception rather than being logged as non-fatal. -/
theorem C6_purge (outcomes : List RemoveOutcome)
    (h : ∀ o ∈ outcomes, o ≠ RemoveOutcome.accessError) :
    deleteAccountsDat outcomes = Except.ok () :=
  deleteLoop_ok 0 outcomes h

/-- Witness for `C6_purge`: purging two locations, one with no
artifact, succeeds. -/
theorem C6_purge_witness :
    (∀ o ∈ [RemoveOutcome.notFound, RemoveOutcome.removed],
      o ≠ RemoveOutcome.accessError) ∧
    deleteAccountsDat [RemoveOutcome.notFound, RemoveOutcome.removed]
      = Except.ok () :=
  ⟨by decide, C6_purge _ (by decide)⟩

/-! ## C7 — missing required field -/

/-- C7 counterexample: a body without the required `symbol` field makes
`_h_symbol_info` raise `KeyError`, which `do_POST` reports as status
500 `Internal error: ...` — a 5xx internal-error classification, not
the 4xx client-error classification the claim states (no capability
call is made). -/
theorem C7_counterexample :
    do_POST (some ([] : Body Nat)) (some (h_symbol_info (fun _ => none) (1, "e")))
      = (HttpResp.errMsg 500 "Internal error: symbol", ([] : List Nat)) :=
  rfl

/-- C7 (amended): a request body lacking the required `symbol` field is
surfaced immediately, is never retried and causes no capability call
(no terminal side effect), but it is classified as a 500 internal error
(the `KeyError` escapes to `do_POST`'s generic handler), not as a
4xx client error. -/
theorem C7_missing_field {α : Type} (symbolInfo : α → Option (Body α))
    (lastErr : Int × String) (b : Body α) (h : b.lookup "symbol" = none) :
    do_POST (some b) (some (h_symbol_info symbolInfo lastErr))
      = (HttpResp.errMsg 500 "Internal error: symbol", ([] : List α)) := by
  simp [do_POST, h_symbol_info, h]

/-- Witness for `C7_missing_field` on a concrete body. -/
theorem C7_missing_field_witness :
    ([(("x" : String), (3 : Nat))].lookup "symbol" = none) ∧
    do_POST (some [(("x" : String), (3 : Nat))])
        (some (h_symbol_info (fun _ => none) (7, "w")))
      = (HttpResp.errMsg 500 "Internal error: symbol", ([] : List Nat)) :=
  ⟨rfl, C7_missing_field _ _ _ rfl⟩

/-! ## C10 — order request extraction -/

/-- C10: `_h_order_send` and `_h_order_check` pass the value of the
`request` field to the capability interface when the field is present,
and the entire decoded body otherwise. -/
theorem C10_request_passthrough {α : Type} (embedObj : Body α → α)
    (orderSend orderCheck : α → Option (Body α)) (lastErr : Int × String)
    (b : Body α) :
    (b.lookup "request" = none →
      (h_order_send embedObj orderSend lastErr b).2 = [embedObj b] ∧
      (h_order_check embedObj orderCheck lastErr b).2 = [embedObj b]) ∧
    (∀ v, b.lookup "request" = some v →
      (h_order_send embedObj orderSend lastErr b).2 = [v] ∧
      (h_order_check embedObj orderCheck lastErr b).2 = [v]) := by
  constructor
  · intro h
    cases hs : orderSend (embedObj b) <;> cases hc : orderCheck (embedObj b) <;>
      simp [h_order_send, h_order_check, h, hs, hc]
  · intro v h
    cases hs : orderSend v <;> cases hc : orderCheck v <;>
      simp [h_order_send, h_order_check, h, hs, hc]

/-- Witness for `C10_request_passthrough` on concrete bodies: an empty
body is passed whole; an explicit `request` field is passed alone. -/
theorem C10_request_passthrough_witness :
    (([] : Body Nat).lookup "request" = none) ∧
    (h_order_send (fun _ => 9) (fun _ => none) (0, "") ([] : Body Nat)).2 = [9] ∧
    ([(("request" : String), (4 : Nat))].lookup "request" = some 4) ∧
    (h_order_check (fun _ => 9) (fun _ => none) (0, "")
        [(("request" : String), (4 : Nat))]).2 = [4] :=
  ⟨rfl,
    ((C10_request_passthrough (fun _ => 9) (fun _ => none) (fun _ => none)
        (0, "") ([] : Body Nat)).1 rfl).1,
    rfl,
    ((C10_request_passthrough (fun _ => 9) (fun _ => none) (fun _ => none)
        (0, "") [(("request" : String), (4 : Nat))]).2 4 rfl).2⟩

/-! ## C5 — scope of the Experts flip -/

/-- C5 counterexample: in the text `[Experts]` / `[Email]` /
`Enabled=0`, the `Enabled=0` line belongs to the `[Email]` section (its
governing header at index 2 is `[Email]`, not an `[Experts]` header),
yet the patch flips it to `Enabled=1`: the `re.DOTALL` lazy gap
`.*?` crosses section headers. -/
theorem C5_counterexample :
    prepareText none none [expertsHeader, emailHeader, enabledZero]
        = [expertsHeader, emailHeader, enabledOne] ∧
    lastHeaderBefore [expertsHeader, emailHeader, enabledZero] 2
        = some emailHeader ∧
    expertsHeader.isPrefixOf emailHeader = false ∧
    enabledZero ≠ enabledOne := by
  decide

/-- C5 (amended): the Experts substitution either changes nothing, or
flips exactly one line: the first `Enabled=0`-prefixed line occurring
anywhere after the first `[Experts]`-prefixed line — regardless of
intervening section headers (the middle part `m` is not required to be
header-free), so an `Enabled=0` belonging to a later, different section
can be flipped; lines before the first `[Experts]` header and every
other line are untouched, and no line not starting with `Enabled=0` is
ever modified. -/
theorem C5_experts_scope (xs : List Line) :
    prepareText none none xs = xs ∨
    ∃ a hd m e b, xs = a ++ hd :: (m ++ e :: b) ∧
      expertsHeader.isPrefixOf hd = true ∧
      (∀ s ∈ a, expertsHeader.isPrefixOf s = false) ∧
      (∀ s ∈ m, enabledZero.isPrefixOf s = false) ∧
      enabledZero.isPrefixOf e = true ∧
      prepareText none none xs = a ++ hd :: (m ++ flipLine e :: b) :=
  expertsFlip_decomp xs

/-! ## C8 — frame effect of a login-only patch -/

/-- C8 counterexample: patching `[Experts]` / `Enabled=0` with only a
login change also flips the `Enabled=0` line, which does not start
with `Login=` — the unconditional Experts substitution runs even on a
login-only patch, so not every non-`Login=` line survives
byte-for-byte. -/
theorem C8_counterexample :
    prepareText (some ['1']) none [expertsHeader, enabledZero]
        = [expertsHeader, enabledOne] ∧
    loginKey.isPrefixOf enabledZero = false ∧
    enabledZero ≠ enabledOne := by
  decide

/-- C8 (amended): a login-only patch rewrites every line-anchored
`Login=` line to `Login=<login>`, and preserves byte-for-byte every
line that neither starts with `Login=` nor starts with `Enabled=0`
(the unconditional Experts substitution may additionally flip one
`Enabled=0` line). -/
theorem C8_login_frame (l : Line) (xs : List Line) (j : Nat) (s : Line)
    (hs : xs[j]? = some s) :
    (loginKey.isPrefixOf s = true →
      (prepareText (some l) none xs)[j]? = some (loginKey ++ l)) ∧
    (loginKey.isPrefixOf s = false → enabledZero.isPrefixOf s = false →
      (prepareText (some l) none xs)[j]? = some s) := by
  have hys : (applyLogin (some l) xs)[j]?
      = some (if loginKey.isPrefixOf s then loginKey ++ l else s) := by
    simp only [applyLogin, List.getElem?_map, hs]
    rfl
  have hpre : prepareText (some l) none xs = expertsFlip (applyLogin (some l) xs) :=
    rfl
  constructor
  · intro hl
    have hys1 : (applyLogin (some l) xs)[j]? = some (loginKey ++ l) := by
      rw [hys, if_pos hl]
    rw [hpre]
    rcases expertsFlip_getElem (applyLogin (some l) xs) j with h | ⟨x, hx1, hx2, _⟩
    · rw [h, hys1]
    · rw [hys1] at hx1
      have hx : x = loginKey ++ l := (Option.some.inj hx1).symm
      rw [hx, zero_not_pre_login] at hx2
      cases hx2
  · intro hl hz
    have hneg : ¬(loginKey.isPrefixOf s = true) := by
      rw [hl]; exact Bool.false_ne_true
    have hys1 : (applyLogin (some l) xs)[j]? = some s := by
      rw [hys, if_neg hneg]
    rw [hpre]
    rcases expertsFlip_getElem (applyLogin (some l) xs) j with h | ⟨x, hx1, hx2, _⟩
    · rw [h, hys1]
    · rw [hys1] at hx1
      have hx : x = s := (Option.some.inj hx1).symm
      rw [hx, hz] at hx2
      cases hx2

/-- Witness for `C8_login_frame` on a concrete text: the `Login=3`
line is rewritten, the `A=b` line survives byte-for-byte. -/
theorem C8_login_frame_witness :
    ([['L', 'o', 'g', 'i', 'n', '=', '3'], ['A', '=', 'b']][0]?
        = some ['L', 'o', 'g', 'i', 'n', '=', '3']) ∧
    loginKey.isPrefixOf ['L', 'o', 'g', 'i', 'n', '=', '3'] = true ∧
    (prepareText (some ['7']) none
        [['L', 'o', 'g', 'i', 'n', '=', '3'], ['A', '=', 'b']])[0]?
      = some (loginKey ++ ['7']) ∧
    (prepareText (some ['7']) none
        [['L', 'o', 'g', 'i', 'n', '=', '3'], ['A', '=', 'b']])[1]?
      = some ['A', '=', 'b'] :=
  ⟨rfl, rfl,
    (C8_login_frame ['7'] [['L', 'o', 'g', 'i', 'n', '=', '3'], ['A', '=', 'b']]
      0 ['L', 'o', 'g', 'i', 'n', '=', '3'] rfl).1 rfl,
    (C8_login_frame ['7'] [['L', 'o', 'g', 'i', 'n', '=', '3'], ['A', '=', 'b']]
      1 ['A', '=', 'b'] rfl).2 rfl rfl⟩

/-! ## C9 — idempotence of the patch transformation -/

/-- C9 counterexample: on `[Experts]` / `Enabled=0` / `Enabled=0` the
transformation is not idempotent: the first pass flips only the first
`Enabled=0` (`count=1`), and a second pass flips the second one, so
applying the patch twice differs from applying it once. -/
theorem C9_counterexample :
    prepareText none none
        (prepareText none none [expertsHeader, enabledZero, enabledZero])
      ≠ prepareText none none [expertsHeader, enabledZero, enabledZero] := by
  decide

/-- C9 (amended): the patch transformation is idempotent for every
login/server choice on every config text having at most one
`Enabled=0`-prefixed line after its first `[Experts]` line (in
particular on any text where the Experts flip finds at most one
candidate — e.g. a well-formed terminal config); with two or more such
lines each pass flips one more, so the unrestricted claim fails. -/
theorem C9_patch_idem (login server : Option Line) (xs : List Line)
    (h : countZeroAfterExperts xs ≤ 1) :
    prepareText login server (prepareText login server xs)
      = prepareText login server xs := by
  have hmap := applyBoth_eq_map login server
  show expertsFlip (applyServer server (applyLogin login
      (expertsFlip (applyServer server (applyLogin login xs)))))
    = expertsFlip (applyServer server (applyLogin login xs))
  rw [hmap xs, hmap (expertsFlip (xs.map (subLine login server))),
    map_subLine_expertsFlip]
  have hc : countZeroAfterExperts (xs.map (subLine login server)) ≤ 1 := by
    rw [countZeroAfterExperts_map (subLine login server)
      (subLine_header login server) (subLine_zero login server)]
    exact h
  exact expertsFlip_idem hc

/-- Witness for `C9_patch_idem` on a concrete config text with
credentials. -/
theorem C9_patch_idem_witness :
    countZeroAfterExperts
        [['L', 'o', 'g', 'i', 'n', '=', '3'], expertsHeader, enabledZero] ≤ 1 ∧
    prepareText (some ['5']) (some ['s'])
        (prepareText (some ['5']) (some ['s'])
          [['L', 'o', 'g', 'i', 'n', '=', '3'], expertsHeader, enabledZero])
      = prepareText (some ['5']) (some ['s'])
          [['L', 'o', 'g', 'i', 'n', '=', '3'], expertsHeader, enabledZero] :=
  ⟨by decide, C9_patch_idem (some ['5']) (some ['s'])
    [['L', 'o', 'g', 'i', 'n', '=', '3'], expertsHeader, enabledZero] (by decide)⟩

end MT5
